import Mathlib

/-!
Verification of the Tidepool data-collection pipeline against its
natural-language specification.  The Python services are shallowly
embedded: each worker loop body becomes a step function on an explicit
state, queues become lists, and JSON values become the inductive `JVal`.
-/

/-- A decoded JSON value.  Objects are association lists; Python dicts
have unique keys and `in`/`[]` use the first (only) binding. -/
inductive JVal where
  | s (v : String)
  | n (v : Int)
  | b (v : Bool)
  | arr (vs : List JVal)
  | obj (fields : List (String × JVal))

/-- Association-list lookup, modelling Python `d[k]` / `k in d` on a
decoded JSON object. -/
def jlookup (fields : List (String × JVal)) (k : String) : Option JVal :=
  match fields with
  | [] => none
  | (k', v) :: rest => if k' = k then some v else jlookup rest k

namespace Mercury

/-- An item on the unvalidated queue: the raw string received from the
stream together with its JSON decoding (`json.loads` is external to the
validator logic; the pair keeps the byte-identical original available). -/
structure Item where
  raw : String
  fields : List (String × JVal)

/-- Required fields checked by `validate_price` in
`DataCollector.validate_data` (Mercury.py). -/
def price_required_fields : List String :=
  ["type", "time", "bids", "asks", "closeoutBid", "closeoutAsk",
   "status", "tradeable", "instrument"]

/-- Required fields checked by `validate_heartbeat`. -/
def heartbeat_required_fields : List String :=
  ["type", "time"]

/-- Embeds `validate_price(datapoint)`: true iff every required field is present. -/
def validate_price (fields : List (String × JVal)) : Bool :=
  price_required_fields.all (fun f => (jlookup fields f).isSome)

/-- Embeds `validate_heartbeat(datapoint)`. -/
def validate_heartbeat (fields : List (String × JVal)) : Bool :=
  heartbeat_required_fields.all (fun f => (jlookup fields f).isSome)

/-- Outcome of one iteration of the `validate_data` worker loop for one
item. -/
inductive StepResult where
  /-- An uncaught exception escapes the loop body and kills the worker
  process. -/
  | crash
  /-- The item is dropped (`continue`) without being forwarded. -/
  | dropped
  /-- `validated_queue.put(item)` with the original string, and
  `telemetry["data_count"] += 1`. -/
  | forwarded (out : String)
deriving DecidableEq, Repr

/-- One iteration of the loop body of `DataCollector.validate_data`
(Mercury.py lines 123-139).  If `"type"` is absent the code logs a
warning but does NOT `continue`; the subsequent `datapoint["type"]`
subscript raises `KeyError`, which is uncaught and kills the worker. -/
def validate_data_step (it : Item) : StepResult :=
  match jlookup it.fields "type" with
  | none => .crash
  | some (.s "PRICE") =>
      if validate_price it.fields then .forwarded it.raw else .dropped
  | some (.s "HEARTBEAT") =>
      if validate_heartbeat it.fields then .forwarded it.raw else .dropped
  | some _ => .forwarded it.raw

/-- State of one validator worker: the validated queue contents it has
produced, its `data_count` telemetry, and whether it has died. -/
structure VState where
  validated : List String
  dataCount : Nat
  crashed : Bool
deriving DecidableEq, Repr

/-- Processing of one queue item by a validator worker; a crashed worker
processes nothing further. -/
def validate_loop_step (s : VState) (it : Item) : VState :=
  if s.crashed then s
  else
    match validate_data_step it with
    | .crash => { s with crashed := true }
    | .dropped => s
    | .forwarded out =>
        { validated := s.validated ++ [out], dataCount := s.dataCount + 1,
          crashed := false }

end Mercury

namespace Terminus

/-- Capacity of `recent_data = deque(maxlen=1000)` in `DBPipeline`. -/
def RING_MAX : Nat := 1000

/-- Embeds `deque(maxlen=RING_MAX).append(p)`: append on the right, evicting
from the left when the deque is full. -/
def pushRing {α : Type} (r : List α) (p : α) : List α :=
  let r' := r ++ [p]
  if r'.length > RING_MAX then r'.drop (r'.length - RING_MAX) else r'

/-- State of the single deduplicator thread
(`DBPipeline.deduplicate_data`, Terminus.py lines 88-109): the ring of
recent packets, the write-queue contents produced so far, and the two
telemetry counters. -/
structure DState (α : Type) where
  ring : List α
  written : List α
  duplicateCount : Nat
  actionCount : Nat

/-- One iteration of the deduplicator loop: test the packet for
structural equality against the current ring; duplicates bump
`duplicate_count` and are discarded, fresh packets are appended to the
ring and forwarded to the write queue; `action_count` is bumped either
way. -/
def deduplicate_data_step {α : Type} [DecidableEq α] (s : DState α) (p : α) : DState α :=
  if p ∈ s.ring then
    { s with duplicateCount := s.duplicateCount + 1,
             actionCount := s.actionCount + 1 }
  else
    { s with ring := pushRing s.ring p,
             written := s.written ++ [p],
             actionCount := s.actionCount + 1 }

/-- The deduplicator applied to a finite stream of packets. -/
def deduplicate_run {α : Type} [DecidableEq α] (s : DState α) (ps : List α) : DState α :=
  ps.foldl deduplicate_data_step s

/-- A packet placed on the processed/write queues by
`DBPipeline.process_data`.  `dest` is the target Mongo collection and
`data` the document; in the source both are plain dicts. -/
structure DBPacket where
  dest : JVal
  data : List (String × JVal)

/-- Result of one iteration of the `process_data` loop for one raw
frame: the packets put on the processed queue, in order, and whether
the iteration reached the `action_count` increment (false when an
uncaught exception — `KeyError` on a missing field or a `dateutil`
parse failure on a non-string time — kills the worker). -/
structure PResult where
  emitted : List DBPacket
  completed : Bool

/-- One iteration of the loop body of `DBPipeline.process_data`
(Terminus.py lines 111-152).  The raw record
`{dest: "raw", data: {time: now, data: frame}}` is put on the processed
queue before the frame is decoded, so it is emitted even when a later
field access raises.  `parseTime` stands for `dateutil.parser.parse`,
`now` for `datetime.datetime.utcnow()`; both are external to the loop
logic.  `decoded` is the result of `json.loads(frame)`. -/
def process_data_step (parseTime : String → JVal) (now : JVal)
    (frame : String) (decoded : List (String × JVal)) : PResult :=
  let rawPacket : DBPacket :=
    { dest := .s "raw", data := [("time", now), ("data", .s frame)] }
  match jlookup decoded "type" with
  | none => { emitted := [rawPacket], completed := false }
  | some (.s "PRICE") =>
      match jlookup decoded "time", jlookup decoded "closeoutBid",
            jlookup decoded "closeoutAsk", jlookup decoded "status",
            jlookup decoded "tradeable", jlookup decoded "instrument" with
      | some (.s tm), some bid, some ask, some st, some tr, some instr =>
          let tick : DBPacket :=
            { dest := instr,
              data := [("time", parseTime tm), ("bid", bid), ("ask", ask),
                       ("status", st), ("tradeable", tr),
                       ("instrument", instr)] }
          { emitted := [rawPacket, tick], completed := true }
      | _, _, _, _, _, _ => { emitted := [rawPacket], completed := false }
  | some (.s "HEARTBEAT") => { emitted := [rawPacket], completed := true }
  | some _ => { emitted := [rawPacket], completed := true }

end Terminus

namespace HealthPublisher

/-- Python `int()` applied to a float/rational: truncation toward zero.
Timestamps come from `time.time()` and are modelled as rationals. -/
def pyInt (q : ℚ) : ℤ :=
  if 0 ≤ q then ⌊q⌋ else ⌈q⌉

/-- State of the `HealthPublisher.run` loop: `prev_message_id`
(initially `-1`) and the trace of timestamps of the snapshots sent on
the PUB socket, in order. -/
structure PubState where
  prevMessageId : ℚ
  sent : List ℚ

/-- The initial publisher state: `self.prev_message_id = -1`, nothing
sent yet. -/
def pubInit : PubState := { prevMessageId := -1, sent := [] }

/-- One iteration of `HealthPublisher.run` (HealthPublisher.py lines
30-41), observing the current snapshot timestamp `ts =
health["timestamp"]`: publish iff `int(ts) != int(prev_message_id)`,
and on publishing set `prev_message_id` to the full (untruncated)
timestamp. -/
def pubStep (s : PubState) (ts : ℚ) : PubState :=
  if pyInt ts ≠ pyInt s.prevMessageId then
    { prevMessageId := ts, sent := s.sent ++ [ts] }
  else s

/-- The publisher loop run over a finite sequence of observed snapshot
timestamps, from the initial state. -/
def pubRun (tss : List ℚ) : PubState := tss.foldl pubStep pubInit

/-- The timestamp of the previously published snapshot: the last
element of the sent trace, or `-1` when nothing has been published. -/
def lastSent (s : PubState) : ℚ := s.sent.getLast?.getD (-1)

end HealthPublisher

namespace Salus

/-- Embeds `DataCollectorMonitor.status` (Salus.py lines 146-173), per
collector index, as a function of the observations it makes:
`tsl` is `health_collections[port].time_since_last()` (`none` when the
port is unknown or has no data — both produce `(3, Unknown)`),
`pusherQ` and `validatorQ` the queue sizes in the latest snapshot, and
`aps` the `velocity` of `data_collector.action_count` over the past 60
seconds.  The walrus `if time_since_last := ...` treats `0.0` as falsy,
so a time-since-last of exactly `0` takes the `else` branch and returns
`(2, Error)`. -/
def status (tsl : Option ℚ) (pusherQ validatorQ : Int) (aps : ℚ) :
    Nat × String :=
  match tsl with
  | none => (3, "Unknown")
  | some t =>
    if t = 0 then (2, "Error")
    else if t > 5 then (2, "Error")
    else if pusherQ > 1000 then
      (1, "Degraded: Data pusher queue size is too large")
    else if pusherQ > 10000 then
      (2, "Error: Data pusher queue size is too large")
    else if validatorQ > 1000 then
      (1, "Degraded: Data validator queue size is too large")
    else if validatorQ > 10000 then
      (2, "Error: Data validator queue size is too large")
    else if aps < 5 then
      (1, "Degraded: Average number of actions per second is too low")
    else (0, "OK")

end Salus

namespace Scaling

/-- A `ScalableGroup` (scaling.py).  Worker `Process` objects are
modelled by identifiers; `nextId` generates a fresh identifier for each
`_create_process()` call, so distinct spawned workers are distinct.
`processes` is the `self.processes` list, in order. -/
structure ScalableGroup where
  minProcesses : Nat
  maxProcesses : Nat
  processes : List Nat
  isRunning : Bool
  nextId : Nat

/-- Embeds `ScalableGroup.__init__`: `max_processes` is replaced by
`min_processes` unless it is strictly greater (`max_processes if
max_processes > min_processes else min_processes`); the process list
starts empty and the group is not running. -/
def mkScalableGroup (minP maxP : Nat) : ScalableGroup :=
  { minProcesses := minP,
    maxProcesses := if maxP > minP then maxP else minP,
    processes := [], isRunning := false, nextId := 0 }

/-- Embeds `_scale_up`: create a fresh process, start it, append it to the
list. -/
def scaleUp (g : ScalableGroup) : ScalableGroup :=
  { g with processes := g.processes ++ [g.nextId], nextId := g.nextId + 1 }

/-- Embeds `_scale_down`: `self.processes.pop()` removes the LAST list entry;
that worker is terminated and joined.  (Every call site guards against
an empty list, where Python `pop()` would raise.) -/
def scaleDown (g : ScalableGroup) : ScalableGroup :=
  { g with processes := g.processes.dropLast }

/-- Embeds `_prune`: drop the workers that are no longer alive, preserving
order; `alive` is the liveness observation made at this call. -/
def prune (g : ScalableGroup) (alive : Nat → Bool) : ScalableGroup :=
  { g with processes := g.processes.filter alive }

/-- The `while self.process_count() < self.min_processes: _scale_up()`
loop: each pass adds exactly one worker, so it runs
`min_processes - count` times. -/
def scaleUpToMin (g : ScalableGroup) : ScalableGroup :=
  scaleUp^[g.minProcesses - g.processes.length] g

/-- The `while self.process_count() > self.max_processes: _scale_down()`
loop: each pass removes exactly one worker, so it runs
`count - max_processes` times. -/
def scaleDownToMax (g : ScalableGroup) : ScalableGroup :=
  scaleDown^[g.processes.length - g.maxProcesses] g

/-- Embeds `_scale`: top up to `min_processes`, then cut down to
`max_processes`. -/
def scale (g : ScalableGroup) : ScalableGroup :=
  scaleDownToMax (scaleUpToMin g)

/-- Embeds `ScalableGroup.autoscale`: raises when the group is not running
(modelled as `none`); otherwise prune then scale. -/
def autoscale (g : ScalableGroup) (alive : Nat → Bool) :
    Option ScalableGroup :=
  if g.isRunning then some (scale (prune g alive)) else none

/-- Embeds `refresh` (scaling.py lines 58-61): `for _ in
range(self.process_count()): self._scale_down(); self._scale_up()`.
The iteration count is the process count on entry. -/
def refresh (g : ScalableGroup) : ScalableGroup :=
  (fun s => scaleUp (scaleDown s))^[g.processes.length] g

/-- Embeds `start`: set running, then create and append `min_processes`
workers. -/
def start (g : ScalableGroup) : ScalableGroup :=
  scaleUp^[g.minProcesses] { g with isRunning := true }

/-- Embeds `stop`: `while self.processes: self._scale_down()`. -/
def stop (g : ScalableGroup) : ScalableGroup :=
  scaleDown^[g.processes.length] g

/-- A `LoadBalancer` (scaling.py): a `ScalableGroup` plus the
hysteresis state.  The load queue itself is external; its depth is an
observation passed to each balancing step. -/
structure LoadBalancer where
  group : ScalableGroup
  maxQueueSize : Nat
  previousQueueSize : Nat

/-- Embeds `LoadBalancer.__init__`: delegates to `ScalableGroup.__init__`
(same `max_processes` adjustment) and starts `previous_queue_size` at
0. -/
def mkLoadBalancer (maxQueueSize minP maxP : Nat) : LoadBalancer :=
  { group := mkScalableGroup minP maxP,
    maxQueueSize := maxQueueSize, previousQueueSize := 0 }

/-- Embeds `_balance_load` (scaling.py lines 86-96) with the observed queue
depth `q = load_queue.qsize()`: grow by one iff `q > max_queue_size`
and the pool is below `max_processes`; otherwise shrink by one iff
`q < max_queue_size` (strict), the queue is strictly shrinking
(`q < previous_queue_size`), and the pool is above `min_processes`;
then record `previous_queue_size := q`. -/
def balance_load (lb : LoadBalancer) (q : Nat) : LoadBalancer :=
  let shrinking : Bool := q < lb.previousQueueSize
  let g :=
    if q > lb.maxQueueSize ∧ lb.group.processes.length < lb.group.maxProcesses then
      scaleUp lb.group
    else if q < lb.maxQueueSize ∧ shrinking ∧
        lb.group.processes.length > lb.group.minProcesses then
      scaleDown lb.group
    else lb.group
  { lb with group := g, previousQueueSize := q }

/-- Embeds `LoadBalancer.autoscale`: the base prune/scale step followed by
`_balance_load`. -/
def lbAutoscale (lb : LoadBalancer) (alive : Nat → Bool) (q : Nat) :
    Option LoadBalancer :=
  match autoscale lb.group alive with
  | none => none
  | some g => some (balance_load { lb with group := g } q)

end Scaling

namespace Scaling

lemma scaleUp_length (g : ScalableGroup) :
    (scaleUp g).processes.length = g.processes.length + 1 := by
  simp [scaleUp]

lemma scaleDown_length (g : ScalableGroup) :
    (scaleDown g).processes.length = g.processes.length - 1 := by
  simp [scaleDown]

lemma scaleUp_fields (g : ScalableGroup) :
    (scaleUp g).minProcesses = g.minProcesses ∧
    (scaleUp g).maxProcesses = g.maxProcesses ∧
    (scaleUp g).isRunning = g.isRunning := by
  simp [scaleUp]

lemma scaleDown_fields (g : ScalableGroup) :
    (scaleDown g).minProcesses = g.minProcesses ∧
    (scaleDown g).maxProcesses = g.maxProcesses ∧
    (scaleDown g).isRunning = g.isRunning := by
  simp [scaleDown]

lemma scaleUp_iter_length (n : ℕ) (g : ScalableGroup) :
    (scaleUp^[n] g).processes.length = g.processes.length + n := by
  induction n generalizing g with
  | zero => simp
  | succ k ih =>
      rw [Function.iterate_succ_apply, ih, scaleUp_length]
      omega

lemma scaleUp_iter_fields (n : ℕ) (g : ScalableGroup) :
    (scaleUp^[n] g).minProcesses = g.minProcesses ∧
    (scaleUp^[n] g).maxProcesses = g.maxProcesses ∧
    (scaleUp^[n] g).isRunning = g.isRunning := by
  induction n generalizing g with
  | zero => simp
  | succ k ih =>
      rw [Function.iterate_succ_apply]
      exact ⟨(ih (scaleUp g)).1, (ih (scaleUp g)).2.1, (ih (scaleUp g)).2.2⟩

lemma scaleDown_iter_length (n : ℕ) (g : ScalableGroup) :
    (scaleDown^[n] g).processes.length = g.processes.length - n := by
  induction n generalizing g with
  | zero => simp
  | succ k ih =>
      rw [Function.iterate_succ_apply, ih, scaleDown_length]
      omega

lemma scaleDown_iter_fields (n : ℕ) (g : ScalableGroup) :
    (scaleDown^[n] g).minProcesses = g.minProcesses ∧
    (scaleDown^[n] g).maxProcesses = g.maxProcesses ∧
    (scaleDown^[n] g).isRunning = g.isRunning := by
  induction n generalizing g with
  | zero => simp
  | succ k ih =>
      rw [Function.iterate_succ_apply]
      exact ⟨(ih (scaleDown g)).1, (ih (scaleDown g)).2.1,
        (ih (scaleDown g)).2.2⟩

lemma scaleUpToMin_length (g : ScalableGroup) :
    (scaleUpToMin g).processes.length =
      max g.processes.length g.minProcesses := by
  rw [scaleUpToMin, scaleUp_iter_length]
  omega

lemma scaleDownToMax_length (g : ScalableGroup) :
    (scaleDownToMax g).processes.length =
      min g.processes.length g.maxProcesses := by
  rw [scaleDownToMax, scaleDown_iter_length]
  omega

lemma scaleUpToMin_fields (g : ScalableGroup) :
    (scaleUpToMin g).minProcesses = g.minProcesses ∧
    (scaleUpToMin g).maxProcesses = g.maxProcesses ∧
    (scaleUpToMin g).isRunning = g.isRunning :=
  scaleUp_iter_fields _ _

lemma scaleDownToMax_fields (g : ScalableGroup) :
    (scaleDownToMax g).minProcesses = g.minProcesses ∧
    (scaleDownToMax g).maxProcesses = g.maxProcesses ∧
    (scaleDownToMax g).isRunning = g.isRunning :=
  scaleDown_iter_fields _ _

lemma scale_length (g : ScalableGroup) :
    (scale g).processes.length =
      min (max g.processes.length g.minProcesses) g.maxProcesses := by
  rw [scale, scaleDownToMax_length, scaleUpToMin_length,
    (scaleUpToMin_fields g).2.1]

lemma scale_fields (g : ScalableGroup) :
    (scale g).minProcesses = g.minProcesses ∧
    (scale g).maxProcesses = g.maxProcesses ∧
    (scale g).isRunning = g.isRunning := by
  rw [scale]
  exact ⟨((scaleDownToMax_fields _).1).trans (scaleUpToMin_fields g).1,
    ((scaleDownToMax_fields _).2.1).trans (scaleUpToMin_fields g).2.1,
    ((scaleDownToMax_fields _).2.2).trans (scaleUpToMin_fields g).2.2⟩

lemma prune_fields (g : ScalableGroup) (alive : Nat → Bool) :
    (prune g alive).minProcesses = g.minProcesses ∧
    (prune g alive).maxProcesses = g.maxProcesses ∧
    (prune g alive).isRunning = g.isRunning := by
  simp [prune]

end Scaling

namespace Scaling

lemma balance_load_group_length (lb : LoadBalancer) (q : Nat) :
    (balance_load lb q).group.processes.length =
      (if q > lb.maxQueueSize ∧
          lb.group.processes.length < lb.group.maxProcesses then
        lb.group.processes.length + 1
      else if q < lb.maxQueueSize ∧ q < lb.previousQueueSize ∧
          lb.group.minProcesses < lb.group.processes.length then
        lb.group.processes.length - 1
      else lb.group.processes.length) ∧
    (balance_load lb q).previousQueueSize = q ∧
    (balance_load lb q).group.minProcesses = lb.group.minProcesses ∧
    (balance_load lb q).group.maxProcesses = lb.group.maxProcesses := by
  rw [balance_load]
  refine ⟨?_, ?_, ?_, ?_⟩ <;>
    split_ifs <;>
      simp_all [scaleUp, scaleDown]

lemma autoscale_bounds (g : ScalableGroup) (alive : Nat → Bool)
    (hmm : g.minProcesses ≤ g.maxProcesses) (hrun : g.isRunning = true) :
    ∃ g', autoscale g alive = some g' ∧
      g.minProcesses ≤ g'.processes.length ∧
      g'.processes.length ≤ g.maxProcesses ∧
      g'.minProcesses = g.minProcesses ∧
      g'.maxProcesses = g.maxProcesses := by
  refine ⟨scale (prune g alive), by rw [autoscale, hrun]; rfl, ?_⟩
  have hl := scale_length (prune g alive)
  have hf := scale_fields (prune g alive)
  have hp := prune_fields g alive
  rw [hl, hp.1, hp.2.1] at *
  refine ⟨?_, ?_, hf.1.trans hp.1, hf.2.1.trans hp.2.1⟩ <;> omega

end Scaling

/-- C1: the claim says the monitor returns `(2, Error: ...)` when a fresh
snapshot shows `data_pusher.queue_size > 10000` (likewise for
`data_validator.queue_size`), Degraded being reserved for `(1000, 10000]`.
The code checks `> 1000` first and returns Degraded there, so for a
1-second-old snapshot with queue size 10001 it returns status code 1, and
the `(2, Error: ... queue size is too large)` branches are unreachable at
every input. -/
theorem status_queue_over_10000_still_degraded :
    Salus.status (some 1) 10001 0 6 =
      (1, "Degraded: Data pusher queue size is too large") ∧
    Salus.status (some 1) 0 10001 6 =
      (1, "Degraded: Data validator queue size is too large") ∧
    (∀ (tsl : Option ℚ) (pq vq : Int) (aps : ℚ),
      Salus.status tsl pq vq aps ≠
        (2, "Error: Data pusher queue size is too large") ∧
      Salus.status tsl pq vq aps ≠
        (2, "Error: Data validator queue size is too large")) := by
  refine ⟨by norm_num [Salus.status], by norm_num [Salus.status], ?_⟩
  intro tsl pq vq aps
  cases tsl with
  | none => exact ⟨by simp [Salus.status], by simp [Salus.status]⟩
  | some t =>
      refine ⟨?_, ?_⟩ <;>
        · simp only [Salus.status]
          split_ifs <;> (simp_all [Prod.ext_iff]; try omega)

/-- An input item whose JSON decoding lacks the field `type`. -/
def noTypeItem : Mercury.Item :=
  { raw := "item-without-type", fields := [("foo", JVal.n 1)] }

/-- A fully valid PRICE item arriving after the malformed one. -/
def laterPriceItem : Mercury.Item :=
  { raw := "good-price-item",
    fields := [("type", JVal.s "PRICE"), ("time", JVal.s "t"),
               ("bids", JVal.arr []), ("asks", JVal.arr []),
               ("closeoutBid", JVal.s "1.1"), ("closeoutAsk", JVal.s "1.2"),
               ("status", JVal.s "tradeable"), ("tradeable", JVal.b true),
               ("instrument", JVal.s "EUR_USD")] }

/-- C2: the claim says an item whose JSON lacks `type` is dropped with a
warning and the worker continues.  In the code the warning is logged but
there is no `continue`; the very next line subscripts `datapoint["type"]`
and the uncaught `KeyError` kills the worker, so later (even fully valid)
items are never processed. -/
theorem validator_missing_type_kills_worker :
    Mercury.validate_data_step noTypeItem = .crash ∧
    Mercury.validate_loop_step
        { validated := [], dataCount := 0, crashed := false } noTypeItem =
      { validated := [], dataCount := 0, crashed := true } ∧
    Mercury.validate_loop_step
        { validated := [], dataCount := 0, crashed := true } laterPriceItem =
      { validated := [], dataCount := 0, crashed := true } :=
  ⟨rfl, rfl, rfl⟩

/-- The concrete running pool used to evaluate `refresh`: two live
workers, identifiers 0 and 1, with 2 the next fresh identifier. -/
def refreshExamplePool : Scaling.ScalableGroup :=
  { minProcesses := 2, maxProcesses := 2, processes := [0, 1],
    isRunning := true, nextId := 2 }

/-- C3: the claim says `refresh()` replaces every worker that was live at
the start of the call.  The code pops the LAST list entry and appends the
replacement at the end, so from the second iteration on it recycles the
worker it just created: on a pool `[0, 1]` the result is `[0, 3]` — the
original worker 0 is still a member (the pool size is unchanged, which is
the only part of the claim that holds). -/
theorem refresh_keeps_oldest_worker :
    (Scaling.refresh refreshExamplePool).processes = [0, 3] ∧
    0 ∈ refreshExamplePool.processes ∧
    0 ∈ (Scaling.refresh refreshExamplePool).processes ∧
    (Scaling.refresh refreshExamplePool).processes.length =
      refreshExamplePool.processes.length := by
  refine ⟨rfl, ?_, ?_, rfl⟩ <;> decide


/-- A running balancer observing a steady queue: depth 50 now and at the
previous call, two live workers, bounds 1..4, threshold 100. -/
def steadyQueueBalancer : Scaling.LoadBalancer :=
  { group := { minProcesses := 1, maxProcesses := 4, processes := [0, 1],
               isRunning := true, nextId := 2 },
    maxQueueSize := 100, previousQueueSize := 50 }

/-- C4 counterexample: the claim says a worker is removed whenever
`q ≤ max_queue_size`, `q ≤ q_prev` (queue not growing) and the live count
exceeds `min_processes`.  With `q = q_prev = 50 ≤ 100`, two live workers
and `min_processes = 1` all three conditions hold, yet `_balance_load`
removes nobody: the code demands strict shrinking (`q < q_prev`) and a
strictly smaller queue (`q < max_queue_size`). -/
theorem balance_load_steady_queue_keeps_worker :
    50 ≤ steadyQueueBalancer.maxQueueSize ∧
    50 ≤ steadyQueueBalancer.previousQueueSize ∧
    steadyQueueBalancer.group.minProcesses <
      steadyQueueBalancer.group.processes.length ∧
    (Scaling.balance_load steadyQueueBalancer 50).group.processes.length = 2 := by
  refine ⟨by decide, by decide, by decide, ?_⟩
  rfl

/-- C4 (amended): on each balancing step with observed depth `q`, exactly
one worker is added iff `q > max_queue_size` and the live count is below
`max_processes`; otherwise exactly one worker is removed iff
`q < max_queue_size` (strict), the queue is strictly shrinking
(`q < q_prev`) and the live count exceeds `min_processes`; in every other
case the size is unchanged; and `q_prev` is then set to `q`. -/
theorem balance_load_policy (lb : Scaling.LoadBalancer) (q : Nat) :
    (Scaling.balance_load lb q).group.processes.length =
      (if q > lb.maxQueueSize ∧
          lb.group.processes.length < lb.group.maxProcesses then
        lb.group.processes.length + 1
      else if q < lb.maxQueueSize ∧ q < lb.previousQueueSize ∧
          lb.group.minProcesses < lb.group.processes.length then
        lb.group.processes.length - 1
      else lb.group.processes.length) ∧
    (Scaling.balance_load lb q).previousQueueSize = q :=
  ⟨(Scaling.balance_load_group_length lb q).1,
   (Scaling.balance_load_group_length lb q).2.1⟩

/-- C10: building a group never rejects its arguments: `__init__` silently
replaces `max_processes` by `min_processes` whenever it is not strictly
greater, so every constructed `ScalableGroup` — and every `LoadBalancer`,
whose `__init__` delegates to it — satisfies
`min_processes ≤ max_processes`. -/
theorem constructor_clamps_max (minP maxP mq : Nat) :
    (Scaling.mkScalableGroup minP maxP).minProcesses ≤
      (Scaling.mkScalableGroup minP maxP).maxProcesses ∧
    (Scaling.mkLoadBalancer mq minP maxP).group.minProcesses ≤
      (Scaling.mkLoadBalancer mq minP maxP).group.maxProcesses ∧
    (maxP ≤ minP →
      (Scaling.mkScalableGroup minP maxP).maxProcesses = minP ∧
      (Scaling.mkLoadBalancer mq minP maxP).group.maxProcesses = minP) := by
  simp only [Scaling.mkScalableGroup, Scaling.mkLoadBalancer]
  refine ⟨?_, ?_, fun h => ⟨?_, ?_⟩⟩ <;> dsimp <;> split_ifs <;> omega

/-- Witness for C10 at `min_processes = 3 > max_processes = 2`: the
effective maximum is clamped to 3. -/
theorem constructor_clamps_max_witness :
    (Scaling.mkScalableGroup 3 2).maxProcesses = 3 ∧
    (Scaling.mkLoadBalancer 100 3 2).group.maxProcesses = 3 :=
  (constructor_clamps_max 3 2 100).2.2 (by decide)

/-- C5: `start()` on a freshly constructed pool launches exactly
`min_processes` workers; every completed `autoscale()` — the plain
`ScalableGroup` one and the `LoadBalancer` one with any observed queue
depth — leaves the live count within `[min_processes, max_processes]`
(the constructor guarantees `min ≤ max`, here a hypothesis); and after
`stop()` the live count is 0. -/
theorem pool_size_invariant (minP maxP : Nat) (g : Scaling.ScalableGroup)
    (alive : Nat → Bool) (lb : Scaling.LoadBalancer) (q : Nat)
    (hg : g.minProcesses ≤ g.maxProcesses) (hgrun : g.isRunning = true)
    (hlb : lb.group.minProcesses ≤ lb.group.maxProcesses)
    (hlbrun : lb.group.isRunning = true) :
    (Scaling.start (Scaling.mkScalableGroup minP maxP)).processes.length
      = minP ∧
    (∃ g', Scaling.autoscale g alive = some g' ∧
      g.minProcesses ≤ g'.processes.length ∧
      g'.processes.length ≤ g.maxProcesses) ∧
    (∃ lb', Scaling.lbAutoscale lb alive q = some lb' ∧
      lb.group.minProcesses ≤ lb'.group.processes.length ∧
      lb'.group.processes.length ≤ lb.group.maxProcesses) ∧
    (Scaling.stop g).processes.length = 0 := by
  refine ⟨?_, ?_, ?_, ?_⟩
  · rw [Scaling.start, Scaling.scaleUp_iter_length]
    simp [Scaling.mkScalableGroup]
  · obtain ⟨g', h1, h2, h3, _, _⟩ := Scaling.autoscale_bounds g alive hg hgrun
    exact ⟨g', h1, h2, h3⟩
  · obtain ⟨g', h1, h2, h3, h4, h5⟩ :=
      Scaling.autoscale_bounds lb.group alive hlb hlbrun
    refine ⟨Scaling.balance_load { lb with group := g' } q, ?_, ?_⟩
    · rw [Scaling.lbAutoscale, h1]
    · obtain ⟨hlen, _, hmin, hmax⟩ :=
        Scaling.balance_load_group_length { lb with group := g' } q
      rw [hlen]
      split_ifs with c1 c2 <;> simp_all <;> omega
  · rw [Scaling.stop, Scaling.scaleDown_iter_length]
    omega

/-- The concrete running pool for the C5 witness: one live worker,
bounds 1..2. -/
def invariantExamplePool : Scaling.ScalableGroup :=
  { minProcesses := 1, maxProcesses := 2, processes := [0],
    isRunning := true, nextId := 1 }

/-- The concrete running balancer for the C5 witness. -/
def invariantExampleBalancer : Scaling.LoadBalancer :=
  { group := invariantExamplePool, maxQueueSize := 10,
    previousQueueSize := 0 }

/-- Witness for C5 at a concrete running pool and balancer. -/
theorem pool_size_invariant_witness :
    (Scaling.start (Scaling.mkScalableGroup 1 2)).processes.length = 1 ∧
    (∃ g', Scaling.autoscale invariantExamplePool (fun _ => true) = some g' ∧
      invariantExamplePool.minProcesses ≤ g'.processes.length ∧
      g'.processes.length ≤ invariantExamplePool.maxProcesses) ∧
    (∃ lb', Scaling.lbAutoscale invariantExampleBalancer (fun _ => true) 0
        = some lb' ∧
      invariantExampleBalancer.group.minProcesses ≤
        lb'.group.processes.length ∧
      lb'.group.processes.length ≤
        invariantExampleBalancer.group.maxProcesses) ∧
    (Scaling.stop invariantExamplePool).processes.length = 0 :=
  pool_size_invariant 1 2 invariantExamplePool (fun _ => true)
    invariantExampleBalancer 0 (by decide) rfl (by decide) rfl

/-- C7: over any packet stream, the deduplicator increments
`action_count` once per packet; a packet structurally equal to a current
ring member bumps `duplicate_count` and is discarded, any other packet is
appended to the ring and forwarded; hence the write queue receives
exactly `N - M` packets where `M` is the number of duplicates detected
(`written + duplicates = N`, counted from any starting state). -/
theorem dedup_stream_counts {α : Type} [DecidableEq α] (ps : List α)
    (s : Terminus.DState α) (p : α) :
    (Terminus.deduplicate_run s ps).actionCount
      = s.actionCount + ps.length ∧
    (Terminus.deduplicate_run s ps).written.length +
        (Terminus.deduplicate_run s ps).duplicateCount
      = s.written.length + s.duplicateCount + ps.length ∧
    s.duplicateCount ≤ (Terminus.deduplicate_run s ps).duplicateCount ∧
    (p ∈ s.ring →
      Terminus.deduplicate_data_step s p =
        { s with duplicateCount := s.duplicateCount + 1,
                 actionCount := s.actionCount + 1 }) ∧
    (p ∉ s.ring →
      Terminus.deduplicate_data_step s p =
        { s with ring := Terminus.pushRing s.ring p,
                 written := s.written ++ [p],
                 actionCount := s.actionCount + 1 }) := by
  refine ⟨?_, ?_, ?_, fun hp => by simp [Terminus.deduplicate_data_step, hp],
    fun hp => by simp [Terminus.deduplicate_data_step, hp]⟩ <;>
  · clear p
    induction ps generalizing s with
    | nil => simp [Terminus.deduplicate_run]
    | cons p ps ih =>
        have hstep := ih (Terminus.deduplicate_data_step s p)
        simp only [Terminus.deduplicate_run, List.foldl_cons] at *
        by_cases hp : p ∈ s.ring <;>
          simp only [Terminus.deduplicate_data_step, hp, if_pos, if_neg,
            ite_true, ite_false, not_true, not_false_iff] at hstep ⊢ <;>
          simp_all <;> omega

/-- Witness for C7: from a state whose ring holds packet 1, the stream
`[1, 2]` yields one duplicate and one forwarded packet, and the step
discards the duplicate 1 and forwards the fresh packet 2. -/
theorem dedup_stream_counts_witness :
    (Terminus.deduplicate_run
        ⟨[1], [], 0, 0⟩ ([1, 2] : List Nat)).actionCount = 0 + 2 ∧
    (Terminus.deduplicate_run ⟨[1], [], 0, 0⟩ ([1, 2] : List Nat)).written.length +
        (Terminus.deduplicate_run ⟨[1], [], 0, 0⟩ ([1, 2] : List Nat)).duplicateCount
      = 0 + 0 + 2 ∧
    Terminus.deduplicate_data_step ⟨[1], [], 0, 0⟩ (1 : Nat) =
      ⟨[1], [], 1, 1⟩ ∧
    Terminus.deduplicate_data_step ⟨[1], [], 0, 0⟩ (2 : Nat) =
      ⟨[1, 2], [2], 0, 1⟩ := by
  have h := dedup_stream_counts ([1, 2] : List Nat) ⟨[1], [], 0, 0⟩ 1
  have h2 := dedup_stream_counts ([] : List Nat) ⟨[1], [], 0, 0⟩ 2
  exact ⟨h.1, h.2.1, h.2.2.2.1 (by decide), h2.2.2.2.2 (by decide)⟩

/-- The eight fields the claim requires of a PRICE item, besides `type`
itself. -/
def price_claim_fields : List String :=
  ["time", "bids", "asks", "closeoutBid", "closeoutAsk",
   "status", "tradeable", "instrument"]

/-- C6: a PRICE item with every required field present is forwarded to
the validated queue byte-identical to the original input string and
`data_count` is incremented; a PRICE item missing any of
`{time, bids, asks, closeoutBid, closeoutAsk, status, tradeable,
instrument}` leaves the worker state unchanged — the item is dropped and
nothing is forwarded or counted. -/
theorem price_item_validation (it : Mercury.Item)
    (htype : jlookup it.fields "type" = some (JVal.s "PRICE")) :
    ((∀ f ∈ price_claim_fields, (jlookup it.fields f).isSome = true) →
      ∀ s : Mercury.VState, s.crashed = false →
        Mercury.validate_loop_step s it =
          { validated := s.validated ++ [it.raw],
            dataCount := s.dataCount + 1, crashed := false }) ∧
    ((∃ f ∈ price_claim_fields, jlookup it.fields f = none) →
      ∀ s : Mercury.VState, s.crashed = false →
        Mercury.validate_loop_step s it = s) := by
  have htype' : (jlookup it.fields "type").isSome = true := by
    rw [htype]; rfl
  constructor
  · intro hall s hs
    simp only [price_claim_fields, List.mem_cons, List.not_mem_nil,
      or_false, forall_eq_or_imp, forall_eq] at hall
    have hvp : Mercury.validate_price it.fields = true := by
      simp only [Mercury.validate_price, Mercury.price_required_fields,
        List.all_cons, List.all_nil, Bool.and_eq_true]
      simp_all
    simp [Mercury.validate_loop_step, hs, Mercury.validate_data_step,
      htype, hvp]
  · intro hmiss s hs
    have hvp : Mercury.validate_price it.fields = false := by
      obtain ⟨f, hf, hnone⟩ := hmiss
      simp only [Mercury.validate_price, Mercury.price_required_fields,
        List.all_cons, List.all_nil, Bool.and_eq_false_iff]
      fin_cases hf <;> simp [hnone]
    simp [Mercury.validate_loop_step, hs, Mercury.validate_data_step,
      htype, hvp]

/-- A PRICE item carrying every required field, paired with its original
wire string. -/
def completePriceItem : Mercury.Item :=
  { raw := "price-frame-original-bytes",
    fields := [("type", JVal.s "PRICE"), ("time", JVal.s "t0"),
               ("bids", JVal.arr []), ("asks", JVal.arr []),
               ("closeoutBid", JVal.s "1.1"), ("closeoutAsk", JVal.s "1.2"),
               ("status", JVal.s "tradeable"), ("tradeable", JVal.b true),
               ("instrument", JVal.s "EUR_USD")] }

/-- A PRICE item missing the `closeoutAsk` field. -/
def incompletePriceItem : Mercury.Item :=
  { raw := "price-frame-missing-field",
    fields := [("type", JVal.s "PRICE"), ("time", JVal.s "t0"),
               ("bids", JVal.arr []), ("asks", JVal.arr []),
               ("closeoutBid", JVal.s "1.1"),
               ("status", JVal.s "tradeable"), ("tradeable", JVal.b true),
               ("instrument", JVal.s "EUR_USD")] }

/-- Witness for C6: the complete PRICE item is forwarded byte-identical
with `data_count` bumped; the item missing `closeoutAsk` leaves the
state untouched. -/
theorem price_item_validation_witness :
    Mercury.validate_loop_step
        { validated := [], dataCount := 0, crashed := false }
        completePriceItem =
      { validated := ["price-frame-original-bytes"], dataCount := 1,
        crashed := false } ∧
    Mercury.validate_loop_step
        { validated := [], dataCount := 0, crashed := false }
        incompletePriceItem =
      { validated := [], dataCount := 0, crashed := false } := by
  constructor
  · exact (price_item_validation completePriceItem rfl).1
      (by decide) { validated := [], dataCount := 0, crashed := false } rfl
  · exact (price_item_validation incompletePriceItem rfl).2
      ⟨"closeoutAsk", by decide, rfl⟩
      { validated := [], dataCount := 0, crashed := false } rfl

/-- The RawRecord packet `{dest: "raw", data: {time: now, data: frame}}`
that the processor puts on the processed queue for every frame. -/
def processRawRecord (now : JVal) (frame : String) : Terminus.DBPacket :=
  { dest := JVal.s "raw", data := [("time", now), ("data", JVal.s frame)] }

/-- The DerivedTick packet `{dest: instrument, data: {time: parsed, bid,
ask, status, tradeable, instrument}}` produced for a PRICE frame. -/
def processDerivedTick (parseTime : String → JVal)
    (tm : String) (bid ask st tr instr : JVal) : Terminus.DBPacket :=
  { dest := instr,
    data := [("time", parseTime tm), ("bid", bid), ("ask", ask),
             ("status", st), ("tradeable", tr), ("instrument", instr)] }

/-- C8: every frame consumed by the processor yields the RawRecord as the
first packet on the processed queue, followed by at most one more packet;
a frame decoding to type HEARTBEAT yields nothing further; a frame
decoding to type PRICE with its fields present additionally yields
exactly the DerivedTick packet. -/
theorem processor_emissions (parseTime : String → JVal) (now : JVal)
    (frame : String) (decoded : List (String × JVal)) :
    (∃ rest,
      (Terminus.process_data_step parseTime now frame decoded).emitted =
        processRawRecord now frame :: rest ∧ rest.length ≤ 1) ∧
    (jlookup decoded "type" = some (JVal.s "HEARTBEAT") →
      Terminus.process_data_step parseTime now frame decoded =
        { emitted := [processRawRecord now frame], completed := true }) ∧
    (∀ (tm : String) (bid ask st tr instr : JVal),
      jlookup decoded "type" = some (JVal.s "PRICE") →
      jlookup decoded "time" = some (JVal.s tm) →
      jlookup decoded "closeoutBid" = some bid →
      jlookup decoded "closeoutAsk" = some ask →
      jlookup decoded "status" = some st →
      jlookup decoded "tradeable" = some tr →
      jlookup decoded "instrument" = some instr →
      Terminus.process_data_step parseTime now frame decoded =
        { emitted := [processRawRecord now frame,
                      processDerivedTick parseTime tm bid ask st tr instr],
          completed := true }) := by
  refine ⟨?_, ?_, ?_⟩
  · unfold Terminus.process_data_step
    split
    · exact ⟨[], rfl, by simp⟩
    · split
      · exact ⟨[_], rfl, by simp⟩
      · exact ⟨[], rfl, by simp⟩
    · exact ⟨[], rfl, by simp⟩
    · exact ⟨[], rfl, by simp⟩
  · intro h
    unfold Terminus.process_data_step
    rw [h]
    rfl
  · intro tm bid ask st tr instr h1 h2 h3 h4 h5 h6 h7
    unfold Terminus.process_data_step
    rw [h1, h2, h3, h4, h5, h6, h7]
    rfl

/-- The decoded PRICE frame from the acceptance example: EUR_USD with
closeout prices "1.1"/"1.2". -/
def priceDecodedExample : List (String × JVal) :=
  [("type", JVal.s "PRICE"), ("time", JVal.s "2023-01-01T00:00:00Z"),
   ("closeoutBid", JVal.s "1.1"), ("closeoutAsk", JVal.s "1.2"),
   ("status", JVal.s "tradeable"), ("tradeable", JVal.b true),
   ("instrument", JVal.s "EUR_USD")]

/-- A decoded HEARTBEAT frame. -/
def heartbeatDecodedExample : List (String × JVal) :=
  [("type", JVal.s "HEARTBEAT"), ("time", JVal.s "2023-01-01T00:00:00Z")]

/-- Witness for C8 on the acceptance example: the PRICE frame yields the
RawRecord followed by the EUR_USD DerivedTick, the HEARTBEAT frame
yields the RawRecord alone. -/
theorem processor_emissions_witness :
    Terminus.process_data_step JVal.s (JVal.n 0) "price-frame"
        priceDecodedExample =
      { emitted := [processRawRecord (JVal.n 0) "price-frame",
          processDerivedTick JVal.s "2023-01-01T00:00:00Z" (JVal.s "1.1")
            (JVal.s "1.2") (JVal.s "tradeable") (JVal.b true)
            (JVal.s "EUR_USD")],
        completed := true } ∧
    Terminus.process_data_step JVal.s (JVal.n 0) "heartbeat-frame"
        heartbeatDecodedExample =
      { emitted := [processRawRecord (JVal.n 0) "heartbeat-frame"],
        completed := true } :=
  ⟨(processor_emissions JVal.s (JVal.n 0) "price-frame"
      priceDecodedExample).2.2 "2023-01-01T00:00:00Z" (JVal.s "1.1")
      (JVal.s "1.2") (JVal.s "tradeable") (JVal.b true) (JVal.s "EUR_USD")
      rfl rfl rfl rfl rfl rfl rfl,
   (processor_emissions JVal.s (JVal.n 0) "heartbeat-frame"
      heartbeatDecodedExample).2.1 rfl⟩

namespace HealthPublisher

/-- Through the publisher loop, `prev_message_id` is always the
timestamp of the last snapshot actually sent (or the initial `-1`), and
every sent timestamp comes from the observed stream. -/
lemma pubFold_inv (tss : List ℚ) (s : PubState)
    (h : s.prevMessageId = lastSent s) :
    (tss.foldl pubStep s).prevMessageId = lastSent (tss.foldl pubStep s) ∧
    ∀ t ∈ (tss.foldl pubStep s).sent, t ∈ s.sent ∨ t ∈ tss := by
  induction tss generalizing s with
  | nil => exact ⟨h, fun t ht => Or.inl ht⟩
  | cons ts tss ih =>
      rw [List.foldl_cons]
      have hstep : (pubStep s ts).prevMessageId = lastSent (pubStep s ts) ∧
          ∀ t ∈ (pubStep s ts).sent, t ∈ s.sent ∨ t = ts := by
        rw [pubStep]
        split_ifs
        · refine ⟨?_, fun t ht => ?_⟩
          · simp [lastSent, List.getLast?_concat]
          · rcases List.mem_append.mp ht with h1 | h1
            · exact Or.inl h1
            · exact Or.inr (List.mem_singleton.mp h1)
        · exact ⟨h, fun t ht => Or.inl ht⟩
      obtain ⟨ih1, ih2⟩ := ih (pubStep s ts) hstep.1
      refine ⟨ih1, fun t ht => ?_⟩
      rcases ih2 t ht with h1 | h1
      · rcases hstep.2 t h1 with h2 | h2
        · exact Or.inl h2
        · exact Or.inr (by simp [h2])
      · exact Or.inr (by simp [h1])

/-- Truncation agrees with floor on the values the publisher compares:
every nonnegative timestamp, and the integral initial `-1`. -/
lemma pyInt_eq_floor_of_nonneg (q : ℚ) (h : 0 ≤ q) : pyInt q = ⌊q⌋ := by
  rw [pyInt, if_pos h]

lemma pyInt_neg_one : pyInt (-1) = ⌊(-1 : ℚ)⌋ := by
  norm_num [pyInt]
  rw [show ((-1 : ℚ)) = ((-1 : ℤ) : ℚ) by norm_num, Int.ceil_intCast]

end HealthPublisher

namespace HealthPublisher

/-- The publishing decision against any state whose `prev_message_id` is
the last sent timestamp: publish iff the floors differ. -/
lemma pubStep_floor_general (s : PubState) (ts : ℚ) (hts : 0 ≤ ts)
    (hprev : s.prevMessageId = lastSent s)
    (hsent : ∀ t ∈ s.sent, 0 ≤ t) :
    ((pubStep s ts).sent ≠ s.sent ↔ ⌊ts⌋ ≠ ⌊lastSent s⌋) ∧
    (⌊ts⌋ = ⌊lastSent s⌋ → pubStep s ts = s) ∧
    (⌊ts⌋ ≠ ⌊lastSent s⌋ → (pubStep s ts).sent = s.sent ++ [ts]) := by
  have hfloor_prev : pyInt s.prevMessageId = ⌊lastSent s⌋ := by
    rw [hprev]
    rcases hgl : s.sent.getLast? with _ | t
    · rw [lastSent, hgl]
      exact pyInt_neg_one
    · rw [lastSent, hgl]
      exact pyInt_eq_floor_of_nonneg t
        (hsent t (List.mem_of_mem_getLast? hgl))
  have hts' : pyInt ts = ⌊ts⌋ := pyInt_eq_floor_of_nonneg ts hts
  have hne : s.sent ++ [ts] ≠ s.sent := by
    intro h
    have := congrArg List.length h
    simp at this
  rw [pubStep]
  split_ifs with c
  · have c' : ⌊ts⌋ ≠ ⌊lastSent s⌋ := by rw [← hts', ← hfloor_prev]; exact c
    exact ⟨by simp [hne, c'], fun h => absurd h c', fun _ => rfl⟩
  · have c' : ⌊ts⌋ = ⌊lastSent s⌋ := by
      rw [← hts', ← hfloor_prev]
      exact not_not.mp c
    exact ⟨by simp [c'], fun _ => rfl, fun h => absurd c' h⟩

end HealthPublisher

/-- C9: running the publisher loop over any observed snapshot-timestamp
stream, the next snapshot is sent on the PUB socket iff the integer part
of its timestamp differs from the integer part of the timestamp of the
previously published snapshot (`-1` sentinel before any publish); when
the integer parts agree the snapshot is never sent and the state is
untouched.  Timestamps are `time.time()` values, hence nonnegative, so
Python `int()` truncation coincides with floor. -/
theorem snapshot_published_iff_floor_changes (tss : List ℚ) (ts : ℚ)
    (hts : 0 ≤ ts) (hall : ∀ t ∈ tss, 0 ≤ t) :
    ((HealthPublisher.pubStep (HealthPublisher.pubRun tss) ts).sent ≠
        (HealthPublisher.pubRun tss).sent ↔
      ⌊ts⌋ ≠ ⌊HealthPublisher.lastSent (HealthPublisher.pubRun tss)⌋) ∧
    (⌊ts⌋ = ⌊HealthPublisher.lastSent (HealthPublisher.pubRun tss)⌋ →
      HealthPublisher.pubStep (HealthPublisher.pubRun tss) ts =
        HealthPublisher.pubRun tss) ∧
    (⌊ts⌋ ≠ ⌊HealthPublisher.lastSent (HealthPublisher.pubRun tss)⌋ →
      (HealthPublisher.pubStep (HealthPublisher.pubRun tss) ts).sent =
        (HealthPublisher.pubRun tss).sent ++ [ts]) := by
  have hinv := HealthPublisher.pubFold_inv tss HealthPublisher.pubInit rfl
  refine HealthPublisher.pubStep_floor_general _ ts hts hinv.1 ?_
  intro t ht
  rcases hinv.2 t ht with h | h
  · simp [HealthPublisher.pubInit] at h
  · exact hall t h

/-- Witness for C9: before anything is published the sentinel is `-1`,
so a first snapshot at timestamp 0 has a different integer part and is
sent. -/
theorem snapshot_published_iff_floor_changes_witness :
    ((HealthPublisher.pubStep (HealthPublisher.pubRun []) 0).sent ≠
        (HealthPublisher.pubRun []).sent ↔
      ⌊(0 : ℚ)⌋ ≠ ⌊HealthPublisher.lastSent (HealthPublisher.pubRun [])⌋) ∧
    (⌊(0 : ℚ)⌋ = ⌊HealthPublisher.lastSent (HealthPublisher.pubRun [])⌋ →
      HealthPublisher.pubStep (HealthPublisher.pubRun []) 0 =
        HealthPublisher.pubRun []) ∧
    (⌊(0 : ℚ)⌋ ≠ ⌊HealthPublisher.lastSent (HealthPublisher.pubRun [])⌋ →
      (HealthPublisher.pubStep (HealthPublisher.pubRun []) 0).sent =
        (HealthPublisher.pubRun []).sent ++ [0]) :=
  snapshot_published_iff_floor_changes [] 0 le_rfl (by simp)
